import Mathlib

/-!
# Verification of the gemini-cli prompt runner and command aggregation service

Shallow embedding of two source components:

* `packages/cli/src/services/CommandService.ts` — the slash-command
  aggregation service (`CommandService`): an ordered list of loaders is
  settled (`Promise.allSettled`), fulfilled outputs are flattened in
  registration order, de-duplicated through a JavaScript `Map` (keys keep
  first-insertion order, values reflect the last `set`), and the resulting
  array is published after `Object.freeze`.

* `packages/cli/src/lib/geminiRunner.ts` — the prompt runner
  (`generateGemini` and `applyNonInteractiveRestrictions`): settings
  validation, authentication resolution from the `GEMINI_API_KEY`
  environment variable, construction of a run configuration, the
  interactive/non-interactive branch, and the non-interactive restriction
  pass that augments the excluded-tools set.

External collaborators that are not part of the repository fragment
(`loadCliConfig`, `USER_SETTINGS_PATH`, the tool-name constants, the
execution engine) are modelled as explicit data threaded through a
`GeminiEnv` environment record; each such definition says so in its doc
comment.
-/

namespace GeminiCli

/-! ## Command aggregation service: data model -/

/-- A slash command as used by `CommandService`: a named unit with a
description, a provenance tag and a behaviour classification (the
executable action is irrelevant to aggregation and is not modelled). -/
structure SlashCommand where
  name : String
  description : String
  sourceTag : String
  behavior : String
deriving DecidableEq, Repr

/-- The settled outcome of one loader's `loadCommands()` promise:
`some cmds` for a fulfilled loader, `none` for a rejected/throwing one.
This is the per-loader view of `Promise.allSettled`. -/
abbrev LoaderOutcome := Option (List SlashCommand)

/-- The `for (const result of results)` loop of
`CommandService.loadCommands`: fulfilled outputs are pushed onto
`allCommands` in registration order, rejected loaders are only logged. -/
def collectFulfilled (results : List LoaderOutcome) : List SlashCommand :=
  results.foldl
    (fun acc r =>
      match r with
      | some value => acc ++ value
      | none => acc)
    []

/-- One `Map.set(k, v)` step on a JavaScript `Map` modelled as its
insertion list: an existing key keeps its position and gets the new
value, a fresh key is appended at the end. -/
def mapSet (m : List (String × SlashCommand)) (k : String) (v : SlashCommand) :
    List (String × SlashCommand) :=
  if m.any (fun p => p.1 = k) then
    m.map (fun p => if p.1 = k then (k, v) else p)
  else
    m ++ [(k, v)]

/-- `Map.get(k)` on the insertion-list model of a JavaScript `Map`. -/
def mapLookup (k : String) : List (String × SlashCommand) → Option SlashCommand
  | [] => none
  | p :: rest => if p.1 = k then some p.2 else mapLookup k rest

/-- The `for (const cmd of allCommands) commandMap.set(cmd.name, cmd)`
loop of `CommandService.loadCommands`, starting from an arbitrary map. -/
def buildCommandMapFrom (m : List (String × SlashCommand))
    (cmds : List SlashCommand) : List (String × SlashCommand) :=
  cmds.foldl (fun m cmd => mapSet m cmd.name cmd) m

/-- The de-duplication `Map` built by `CommandService.loadCommands`
starting from the fresh `new Map()`. -/
def buildCommandMap (cmds : List SlashCommand) : List (String × SlashCommand) :=
  buildCommandMapFrom [] cmds

/-- `Array.from(commandMap.values())`: the de-duplicated catalog. -/
def dedupeCommands (cmds : List SlashCommand) : List SlashCommand :=
  (buildCommandMap cmds).map Prod.snd

/-- The state of a `CommandService`: the internal `commands` array and
whether that array object has been passed through `Object.freeze`.  The
initial array literal `[]` is never frozen; `loadCommands` publishes a
frozen array.  (TypeScript's `readonly`/`ReadonlyArray` annotations are
erased at runtime and have no runtime effect.) -/
structure CommandService where
  commands : List SlashCommand
  frozen : Bool
deriving DecidableEq, Repr

/-- The freshly constructed service: `private commands: readonly
SlashCommand[] = []` — an ordinary (unfrozen) empty array. -/
def CommandService.init : CommandService :=
  { commands := [], frozen := false }

/-- `CommandService.loadCommands`, parameterised by how the registered
loaders settle (in registration order).  `Promise.allSettled` never
rejects, so the operation is total: it flattens the fulfilled outputs in
registration order, de-duplicates them through a `Map`, and replaces the
published array with `Object.freeze(Array.from(commandMap.values()))`. -/
def CommandService.loadCommands (_s : CommandService)
    (results : List LoaderOutcome) : CommandService :=
  { commands := dedupeCommands (collectFulfilled results), frozen := true }

/-- `CommandService.getCommands`: a pure accessor returning the current
internal array (the very same array object, not a copy). -/
def CommandService.getCommands (s : CommandService) : List SlashCommand :=
  s.commands

/-- The outcome of `commands.push(c)` on the array returned by
`getCommands()` (the internal array itself): on a frozen array, strict-mode
code raises a `TypeError` and the array is unchanged; on an ordinary array
the push silently succeeds and mutates the service's internal catalog. -/
inductive PushResult where
  | threw (s : CommandService)
  | pushed (s : CommandService)
deriving DecidableEq, Repr

/-- `Array.prototype.push` applied to the array returned by
`getCommands()`.  `Object.freeze` makes the push throw a `TypeError`
(ES modules run in strict mode); otherwise it appends in place. -/
def CommandService.pushReturned (s : CommandService) (c : SlashCommand) :
    PushResult :=
  if s.frozen then
    PushResult.threw s
  else
    PushResult.pushed { commands := s.commands ++ [c], frozen := s.frozen }

/-- First-occurrence de-duplication of a list of names, keeping
first-insertion order; `seen` accumulates the names already placed.  Used
to state the `Map`-key ordering property of the catalog. -/
def firstOccurrencesFrom (seen : List String) : List String → List String
  | [] => []
  | n :: rest =>
      if n ∈ seen then firstOccurrencesFrom seen rest
      else n :: firstOccurrencesFrom (seen ++ [n]) rest

/-- The distinct names of a command list in first-insertion order. -/
def firstOccurrences (names : List String) : List String :=
  firstOccurrencesFrom [] names

/-! ## Prompt runner: data model

`geminiRunner.ts` depends on collaborators outside the repository
fragment (`loadSettings`, `loadCliConfig`, `USER_SETTINGS_PATH`, the
`@google/gemini-cli-core` tool-name constants, `runNonInteractive`).
Their observable behaviour is modelled explicitly; nondeterministic or
environment-supplied data (the API key, TTY status, engine answers) is
threaded through a `GeminiEnv` record. -/

/-- One structural error reported by the settings source: an offending
settings-file path and its message. -/
structure SettingsError where
  path : String
  message : String
deriving DecidableEq, Repr

/-- The merged settings relevant to the runner: the optionally configured
model name (JavaScript falsy when absent or empty) and the optionally
supplied excluded-tools list. -/
structure Settings where
  model : Option String
  excludeTools : Option (List String)
deriving DecidableEq, Repr

/-- The result of `loadSettings(cwd)`: merged settings plus a list of
`{path, message}` structural errors. -/
structure LoadSettingsResult where
  merged : Settings
  errors : List SettingsError
deriving DecidableEq, Repr

/-- The approval mode reported by the engine's `getApprovalMode()`. -/
inductive ApprovalMode where
  | yolo
  | autoEdit
  | dflt
deriving DecidableEq, Repr

/-- Modelled from the spec: `USER_SETTINGS_PATH` is a constant imported
from the excluded settings collaborator (`../config/settings.js`), the
expected settings file path named in the missing-credentials error. -/
def USER_SETTINGS_PATH : String := "~/.gemini/settings.json"

/-- Modelled from the spec: `ShellTool.Name`, the shell-execution tool
name constant imported from `@google/gemini-cli-core`. -/
def ShellToolName : String := "run_shell_command"

/-- Modelled from the spec: `EditTool.Name`, the file-edit tool name
constant imported from `@google/gemini-cli-core`. -/
def EditToolName : String := "edit_file"

/-- Modelled from the spec: `WriteFileTool.Name`, the file-write tool
name constant imported from `@google/gemini-cli-core`. -/
def WriteFileToolName : String := "write_file"

/-- JavaScript `m || fallback` on an optional string: `undefined` and the
empty string are both falsy. -/
def jsOrDefault (m : Option String) (fallback : String) : String :=
  match m with
  | some s => if s = "" then fallback else s
  | none => fallback

/-- `Array.from(new Set(l))`: de-duplication of a string list keeping
first-occurrence insertion order (JavaScript `Set` semantics). -/
def dedupStrings (l : List String) : List String :=
  l.foldl (fun acc s => if s ∈ acc then acc else acc ++ [s]) []

/-- The `CliArgs` record built at both call sites of `loadCliConfig` in
`geminiRunner.ts`, with every field of the source literal. -/
structure CliArgs where
  model : String
  sandbox : Bool
  sandboxImage : Option String
  debug : Bool
  prompt : String
  promptInteractive : String
  allFiles : Bool
  all_files : Bool
  extensions : List String
  allowedMcpServerNames : List String
  yolo : Bool
  showMemoryUsage : Bool
  show_memory_usage : Bool
  telemetry : Bool
  telemetryTarget : Option String
  telemetryOtlpEndpoint : Option String
  telemetryLogPrompts : Option Bool
  checkpointing : Bool
  proxy : Option String
  experimentalAcp : Bool
  listExtensions : Bool
  ideMode : Bool
deriving DecidableEq, Repr

/-- The `defaultCliArgs` literal of `generateGemini` (lines 42–65):
`model: settings.merged.model || 'gemini-2.5-pro'`, `yolo: true`, all
other fields the fixed values of the source literal. -/
def defaultCliArgs (merged : Settings) : CliArgs :=
  { model := jsOrDefault merged.model "gemini-2.5-pro"
    sandbox := false
    sandboxImage := none
    debug := false
    prompt := ""
    promptInteractive := ""
    allFiles := false
    all_files := false
    extensions := []
    allowedMcpServerNames := []
    yolo := true
    showMemoryUsage := false
    show_memory_usage := false
    telemetry := false
    telemetryTarget := none
    telemetryOtlpEndpoint := none
    telemetryLogPrompts := none
    checkpointing := false
    proxy := none
    experimentalAcp := false
    listExtensions := false
    ideMode := false }

/-- The `defaultCliArgs` literal of `applyNonInteractiveRestrictions`
(lines 115–138): identical to the one in `generateGemini` except that the
model fallback is `'gemini-1.5-flash'`. -/
def restrictionCliArgs (merged : Settings) : CliArgs :=
  { defaultCliArgs merged with
    model := jsOrDefault merged.model "gemini-1.5-flash" }

/-- The observable face of a `Config` object produced by `loadCliConfig`:
the selected model, the excluded-tools set, the auto-approval flag
(`yolo` CLI argument), the engine-reported approval mode, and the session
identifier. -/
structure RunConfig where
  model : String
  excludeTools : List String
  autoApprove : Bool
  approvalMode : ApprovalMode
  sessionId : String
deriving DecidableEq, Repr

/-- Modelled from the spec: `loadCliConfig(merged, extensions, sessionId,
args)` is an excluded collaborator (`../config/config.js`).  The Run
Configuration it builds carries the model from the CLI args, the
excluded-tools set from the merged settings (absent treated as empty),
the auto-approval flag from the `yolo` CLI arg, and the session id; the
approval mode its `getApprovalMode()` later reports is external input,
supplied here as a parameter. -/
def loadCliConfig (merged : Settings) (sessionId : String) (args : CliArgs)
    (approvalMode : ApprovalMode) : RunConfig :=
  { model := args.model
    excludeTools := merged.excludeTools.getD []
    autoApprove := args.yolo
    approvalMode := approvalMode
    sessionId := sessionId }

/-- Which imported engine entry point a dispatch goes through.  The
source imports and calls only `runNonInteractive`; the interactive entry
point exists in the engine's contract (spec §6) but is never referenced
by `geminiRunner.ts`. -/
inductive EngineEntry where
  | nonInteractive
  | interactive
deriving DecidableEq, Repr

/-- Observable calls made on the execution engine, in program order:
`config.initialize()`, `config.refreshAuth(authType)`, and a dispatch to
an execution entry point with `(config, prompt, promptId)`. -/
inductive EngineEvent where
  | initCall
  | refreshAuth
  | runCall (entry : EngineEntry) (config : RunConfig) (prompt : String)
      (promptId : String)
deriving DecidableEq, Repr

/-- The execution-entry dispatches contained in a trace, with their
arguments, in order. -/
def runCallsOf (events : List EngineEvent) :
    List (EngineEntry × RunConfig × String × String) :=
  events.filterMap
    (fun e =>
      match e with
      | EngineEvent.runCall entry c p i => some (entry, c, p, i)
      | _ => none)

/-- The errors `generateGemini` can throw.  The source always throws a
plain `Error`; the constructors record the spec's taxonomy: a
configuration error (malformed settings), an authentication error
(missing credential or failed validation), an input error (no resolvable
question), the execution-error wrapper added in the non-interactive
branch, and an engine failure rethrown unchanged (no wrapper). -/
inductive GeminiError where
  | configurationError (message : String)
  | authenticationError (message : String)
  | inputError (message : String)
  | executionError (message : String)
  | engineFailure (detail : String)
deriving DecidableEq, Repr

/-- The diagnostic built at lines 26–30: one line per settings error,
`Erreur dans <path>: <message>`, joined with newlines. -/
def configErrorMessage (errors : List SettingsError) : String :=
  String.intercalate "\n"
    (errors.map (fun e => "Erreur dans " ++ e.path ++ ": " ++ e.message))

/-- The missing-credential message of lines 35–37, naming the expected
settings file path and the expected environment variable. -/
def authMissingMessage : String :=
  "Aucune méthode d\x27auth. Configure " ++ USER_SETTINGS_PATH ++
    " ou définis GEMINI_API_KEY"

/-- JavaScript `String.prototype.trim`: strip leading and trailing
whitespace (structural model of the `.trim()` calls in the source). -/
def jsTrim (s : String) : String :=
  String.mk
    (((s.data.dropWhile Char.isWhitespace).reverse.dropWhile
        Char.isWhitespace).reverse)

/-- `prompt.trim() || config.getQuestion()?.trim()` followed by the
`if (!question)` falsiness test: the effective question is the trimmed
prompt, falling back to the trimmed engine-supplied question; `none`
exactly when the subsequent check throws. -/
def resolveQuestion (prompt : String) (engineQuestion : Option String) :
    Option String :=
  if jsTrim prompt ≠ "" then some (jsTrim prompt)
  else
    match engineQuestion with
    | none => none
    | some q => if jsTrim q = "" then none else some (jsTrim q)

/-- Environment of one `generateGemini` call: everything the runner reads
from collaborators outside the fragment.  `initialApprovalMode` and
`restrictedApprovalMode` are what `getApprovalMode()` reports on the
initial and on the rebuilt configuration; `engineQuestion` is
`config.getQuestion()`; `engineRunFailure` is `some detail` when the
engine's `runNonInteractive` rejects; `promptId` stands for the random
correlation identifier. -/
structure GeminiEnv where
  settings : LoadSettingsResult
  geminiApiKey : Option String
  isTTY : Bool
  validateAuthError : Option String
  engineQuestion : Option String
  initialApprovalMode : ApprovalMode
  restrictedApprovalMode : ApprovalMode
  engineRunFailure : Option String
  promptId : String
deriving DecidableEq, Repr

/-- `applyNonInteractiveRestrictions(config, extensions, settings)`
(lines 95–147): when the approval mode is not `YOLO`, augment the
excluded tools with the shell/edit/write tool names, de-duplicate, build
a fresh configuration with `restrictionCliArgs` (auto-approval `yolo:
true`), initialize it and return it; otherwise initialize the original
configuration and return it unchanged.  The second component is the list
of engine events the pass emits. -/
def applyNonInteractiveRestrictions (config : RunConfig)
    (settings : LoadSettingsResult) (restrictedApprovalMode : ApprovalMode) :
    RunConfig × List EngineEvent :=
  if config.approvalMode ≠ ApprovalMode.yolo then
    let newExcludeTools :=
      settings.merged.excludeTools.getD [] ++
        [ShellToolName, EditToolName, WriteFileToolName]
    let merged : Settings :=
      { settings.merged with excludeTools := some (dedupStrings newExcludeTools) }
    let restrictedConfig :=
      loadCliConfig merged config.sessionId (restrictionCliArgs settings.merged)
        restrictedApprovalMode
    (restrictedConfig, [EngineEvent.initCall])
  else
    (config, [EngineEvent.initCall])

/-- `generateGemini(prompt, interactive)` (lines 21–93): returns the
trace of engine events together with the result — `Except.ok` carrying
the returned confirmation string, `Except.error` the thrown error.
Control flow follows the source: settings-error check, credential check,
configuration build, auth validation, `initialize`/`refreshAuth`, then
the interactive-or-TTY branch or the restricted non-interactive branch. -/
def generateGemini (env : GeminiEnv) (prompt : String)
    (interactive : Bool := false) :
    List EngineEvent × Except GeminiError String :=
  let settings := env.settings
  if settings.errors ≠ [] then
    ([], Except.error (GeminiError.configurationError
      (configErrorMessage settings.errors)))
  else
    match env.geminiApiKey with
    | none =>
        ([], Except.error (GeminiError.authenticationError authMissingMessage))
    | some _ =>
        let config :=
          loadCliConfig settings.merged "session-id"
            (defaultCliArgs settings.merged) env.initialApprovalMode
        match env.validateAuthError with
        | some err =>
            ([], Except.error (GeminiError.authenticationError err))
        | none =>
            let preEvents := [EngineEvent.initCall, EngineEvent.refreshAuth]
            if interactive || env.isTTY then
              match resolveQuestion prompt env.engineQuestion with
              | none =>
                  (preEvents,
                    Except.error (GeminiError.inputError "Aucune question fournie."))
              | some question =>
                  let events := preEvents ++
                    [EngineEvent.runCall EngineEntry.nonInteractive config
                      question env.promptId]
                  match env.engineRunFailure with
                  | some e => (events, Except.error (GeminiError.engineFailure e))
                  | none => (events, Except.ok "Réponse interactive générée.")
            else
              let restricted :=
                applyNonInteractiveRestrictions config settings
                  env.restrictedApprovalMode
              let events := preEvents ++ restricted.2 ++
                [EngineEvent.runCall EngineEntry.nonInteractive restricted.1
                  prompt env.promptId]
              match env.engineRunFailure with
              | some e =>
                  (events, Except.error (GeminiError.executionError
                    ("Échec de génération Gemini : " ++ e)))
              | none => (events, Except.ok "Réponse non-interactive générée.")

/-! ## Specification functions used to characterise the `Map` model -/

/-- The last command named `x` in a list (specification function for the
last-writer-wins value property of the de-duplication `Map`). -/
def lastNamed (x : String) : List SlashCommand → Option SlashCommand
  | [] => none
  | c :: rest =>
      match lastNamed x rest with
      | some d => some d
      | none => if c.name = x then some c else none

/-! ## Helper lemmas -/

theorem collectFulfilled_from (results : List LoaderOutcome)
    (acc : List SlashCommand) :
    results.foldl
      (fun acc r =>
        match r with
        | some value => acc ++ value
        | none => acc)
      acc = acc ++ (results.filterMap id).flatten := by
  induction results generalizing acc with
  | nil => simp
  | cons r rest ih =>
      cases r with
      | none => simp [List.foldl_cons, ih]
      | some value => simp [List.foldl_cons, ih]

/-- The push loop over settled results equals the flattening, in
registration order, of exactly the fulfilled outputs. -/
theorem collectFulfilled_eq_join (results : List LoaderOutcome) :
    collectFulfilled results = (results.filterMap id).flatten := by
  simpa using collectFulfilled_from results []

theorem collectFulfilled_of_all_none (results : List LoaderOutcome)
    (h : ∀ r ∈ results, r = none) :
    collectFulfilled results = [] := by
  rw [collectFulfilled_eq_join]
  have : results.filterMap id = [] := by
    rw [List.filterMap_eq_nil_iff]
    intro a ha
    simpa using h a ha
  simp [this]

theorem mapLookup_replaceMap_ne (m : List (String × SlashCommand))
    (k x : String) (v : SlashCommand) (hx : x ≠ k) :
    mapLookup x (m.map (fun p => if p.1 = k then (k, v) else p)) =
      mapLookup x m := by
  induction m with
  | nil => rfl
  | cons p rest ih =>
      by_cases hp : p.1 = k
      · have hkx : ¬ (k = x) := fun h => hx h.symm
        have hpx : ¬ (p.1 = x) := fun h => hx (h.symm.trans hp)
        simp only [List.map_cons, if_pos hp, mapLookup]
        simp only [hkx, if_false, hpx]
        exact ih
      · simp only [List.map_cons, if_neg hp, mapLookup]
        by_cases hpx : p.1 = x
        · simp [hpx]
        · simp only [if_neg hpx]
          exact ih

theorem mapLookup_replaceMap_self (m : List (String × SlashCommand))
    (k : String) (v : SlashCommand)
    (hk : m.any (fun p => p.1 = k) = true) :
    mapLookup k (m.map (fun p => if p.1 = k then (k, v) else p)) = some v := by
  induction m with
  | nil => simp at hk
  | cons p rest ih =>
      by_cases hp : p.1 = k
      · simp [mapLookup, hp]
      · simp only [List.map_cons, if_neg hp, mapLookup, if_neg hp]
        apply ih
        simp only [List.any_cons, Bool.or_eq_true] at hk
        rcases hk with hk1 | hk2
        · exact absurd (by simpa using hk1) hp
        · exact hk2

theorem mapLookup_append_single (m : List (String × SlashCommand))
    (k x : String) (v : SlashCommand)
    (hk : m.any (fun p => p.1 = k) = false) :
    mapLookup x (m ++ [(k, v)]) =
      if x = k then some v else mapLookup x m := by
  induction m with
  | nil =>
      by_cases hx : x = k
      · simp [mapLookup, hx]
      · have hkx : ¬ (k = x) := fun h => hx h.symm
        simp [mapLookup, hx, hkx]
  | cons p rest ih =>
      simp only [List.any_cons, Bool.or_eq_false_iff] at hk
      have hp : p.1 ≠ k := by simpa using hk.1
      by_cases hpx : p.1 = x
      · have hx : x ≠ k := fun h => hp (hpx.trans h)
        simp [mapLookup, hpx, hx]
      · simp only [List.cons_append, mapLookup, if_neg hpx]
        exact ih hk.2

theorem mapLookup_mapSet (m : List (String × SlashCommand)) (k x : String)
    (v : SlashCommand) :
    mapLookup x (mapSet m k v) =
      if x = k then some v else mapLookup x m := by
  unfold mapSet
  by_cases hany : m.any (fun p => p.1 = k)
  · rw [if_pos hany]
    by_cases hx : x = k
    · subst hx
      rw [if_pos rfl]
      exact mapLookup_replaceMap_self m x v hany
    · rw [if_neg hx]
      exact mapLookup_replaceMap_ne m k x v hx
  · rw [if_neg hany]
    apply mapLookup_append_single m k x v
    simp only [Bool.not_eq_true] at hany
    exact hany

theorem any_key_iff (m : List (String × SlashCommand)) (k : String) :
    m.any (fun p => p.1 = k) = true ↔ k ∈ m.map Prod.fst := by
  simp only [List.any_eq_true, List.mem_map, decide_eq_true_eq]

theorem mapSet_keys (m : List (String × SlashCommand)) (k : String)
    (v : SlashCommand) :
    (mapSet m k v).map Prod.fst =
      if k ∈ m.map Prod.fst then m.map Prod.fst
      else m.map Prod.fst ++ [k] := by
  unfold mapSet
  by_cases hany : m.any (fun p => p.1 = k) = true
  · rw [if_pos hany, if_pos ((any_key_iff m k).mp hany)]
    rw [List.map_map]
    apply List.map_congr_left
    intro p _
    by_cases hp : p.1 = k
    · simp [hp]
    · simp [hp]
  · rw [if_neg hany, if_neg (fun h => hany ((any_key_iff m k).mpr h))]
    simp

theorem buildCommandMapFrom_keys (cmds : List SlashCommand)
    (m : List (String × SlashCommand)) :
    (buildCommandMapFrom m cmds).map Prod.fst =
      m.map Prod.fst ++
        firstOccurrencesFrom (m.map Prod.fst) (cmds.map SlashCommand.name) := by
  induction cmds generalizing m with
  | nil => simp [buildCommandMapFrom, firstOccurrencesFrom]
  | cons c rest ih =>
      show (buildCommandMapFrom (mapSet m c.name c) rest).map Prod.fst = _
      rw [ih (mapSet m c.name c), mapSet_keys]
      by_cases hc : c.name ∈ m.map Prod.fst
      · rw [if_pos hc]
        simp only [List.map_cons, firstOccurrencesFrom, if_pos hc]
      · rw [if_neg hc]
        simp only [List.map_cons, firstOccurrencesFrom, if_neg hc]
        simp [List.append_assoc]

/-- The keys of the de-duplication `Map` are the distinct command names
in first-insertion order. -/
theorem buildCommandMap_keys (cmds : List SlashCommand) :
    (buildCommandMap cmds).map Prod.fst =
      firstOccurrences (cmds.map SlashCommand.name) := by
  simpa [buildCommandMap, firstOccurrences] using buildCommandMapFrom_keys cmds []

theorem mapLookup_buildCommandMapFrom (cmds : List SlashCommand)
    (m : List (String × SlashCommand)) (x : String) :
    mapLookup x (buildCommandMapFrom m cmds) =
      match lastNamed x cmds with
      | some d => some d
      | none => mapLookup x m := by
  induction cmds generalizing m with
  | nil => rfl
  | cons c rest ih =>
      show mapLookup x (buildCommandMapFrom (mapSet m c.name c) rest) = _
      rw [ih (mapSet m c.name c)]
      cases hr : lastNamed x rest with
      | some d => simp [lastNamed, hr]
      | none =>
          rw [mapLookup_mapSet]
          by_cases hc : c.name = x
          · simp [lastNamed, hr, hc]
          · have hxc : ¬ (x = c.name) := fun h => hc h.symm
            simp [lastNamed, hr, hc, hxc]

/-- Looking a name up in the de-duplication `Map` yields the last command
carrying that name in the flattened input (last-writer-wins). -/
theorem mapLookup_buildCommandMap (cmds : List SlashCommand) (x : String) :
    mapLookup x (buildCommandMap cmds) = lastNamed x cmds := by
  rw [buildCommandMap, mapLookup_buildCommandMapFrom]
  cases lastNamed x cmds <;> rfl

theorem lastNamed_append (x : String) (a b : List SlashCommand) :
    lastNamed x (a ++ b) =
      match lastNamed x b with
      | some d => some d
      | none => lastNamed x a := by
  induction a with
  | nil =>
      rw [List.nil_append]
      cases hb : lastNamed x b <;> simp [lastNamed, hb]
  | cons c rest ih =>
      rw [List.cons_append]
      show (match lastNamed x (rest ++ b) with
        | some d => some d
        | none => if c.name = x then some c else none) = _
      rw [ih]
      cases hb : lastNamed x b <;> cases hr : lastNamed x rest <;>
        simp [lastNamed, hb, hr]

theorem mem_mapSet (m : List (String × SlashCommand)) (k : String)
    (v : SlashCommand) (p : String × SlashCommand)
    (h : p ∈ mapSet m k v) : p ∈ m ∨ p = (k, v) := by
  unfold mapSet at h
  by_cases hany : m.any (fun q => q.1 = k) = true
  · rw [if_pos hany] at h
    rcases List.mem_map.mp h with ⟨q, hq, hqp⟩
    by_cases hqk : q.1 = k
    · right
      rw [← hqp]
      simp [hqk]
    · left
      rw [← hqp]
      simpa [hqk] using hq
  · rw [if_neg hany] at h
    rcases List.mem_append.mp h with h1 | h2
    · exact Or.inl h1
    · exact Or.inr (List.mem_singleton.mp h2)

theorem mem_buildCommandMapFrom (cmds : List SlashCommand)
    (m : List (String × SlashCommand)) (p : String × SlashCommand)
    (h : p ∈ buildCommandMapFrom m cmds) : p ∈ m ∨ p.2 ∈ cmds := by
  induction cmds generalizing m with
  | nil => exact Or.inl h
  | cons c rest ih =>
      have h' : p ∈ buildCommandMapFrom (mapSet m c.name c) rest := h
      rcases ih (mapSet m c.name c) h' with h1 | h2
      · rcases mem_mapSet m c.name c p h1 with h3 | h4
        · exact Or.inl h3
        · right
          rw [h4]
          exact List.mem_cons_self _ _
      · exact Or.inr (List.mem_cons_of_mem _ h2)

/-- Every command in the de-duplicated catalog comes from the flattened
input list. -/
theorem mem_dedupeCommands (cmds : List SlashCommand) (c : SlashCommand)
    (h : c ∈ dedupeCommands cmds) : c ∈ cmds := by
  rcases List.mem_map.mp h with ⟨p, hp, hpc⟩
  rcases mem_buildCommandMapFrom cmds [] p hp with h1 | h2
  · simp at h1
  · rw [← hpc]
    exact h2

theorem mem_dedupStrings_from (l : List String) (acc : List String)
    (x : String) (h : x ∈ acc ∨ x ∈ l) :
    x ∈ l.foldl (fun acc s => if s ∈ acc then acc else acc ++ [s]) acc := by
  induction l generalizing acc with
  | nil => simpa using h
  | cons s rest ih =>
      rw [List.foldl_cons]
      apply ih
      show x ∈ (if s ∈ acc then acc else acc ++ [s]) ∨ x ∈ rest
      by_cases hs : s ∈ acc
      · rw [if_pos hs]
        rcases h with h1 | h2
        · exact Or.inl h1
        · rcases List.mem_cons.mp h2 with h3 | h4
          · exact Or.inl (h3 ▸ hs)
          · exact Or.inr h4
      · rw [if_neg hs]
        rcases h with h1 | h2
        · exact Or.inl (List.mem_append_left _ h1)
        · rcases List.mem_cons.mp h2 with h3 | h4
          · exact Or.inl (by simp [h3])
          · exact Or.inr h4

/-- `Array.from(new Set(l))` keeps every element of `l`. -/
theorem mem_dedupStrings (l : List String) (x : String) (h : x ∈ l) :
    x ∈ dedupStrings l :=
  mem_dedupStrings_from l [] x (Or.inr h)

theorem buildCommandMapFrom_key_eq_name (cmds : List SlashCommand)
    (m : List (String × SlashCommand)) (hm : ∀ p ∈ m, p.1 = p.2.name) :
    ∀ p ∈ buildCommandMapFrom m cmds, p.1 = p.2.name := by
  induction cmds generalizing m with
  | nil => exact hm
  | cons c rest ih =>
      intro p hp
      apply ih (mapSet m c.name c) _ p hp
      intro q hq
      rcases mem_mapSet m c.name c q hq with h1 | h2
      · exact hm q h1
      · rw [h2]

/-- The names of the de-duplicated catalog are the distinct input names
in first-insertion order. -/
theorem dedupeCommands_names (cmds : List SlashCommand) :
    (dedupeCommands cmds).map SlashCommand.name =
      firstOccurrences (cmds.map SlashCommand.name) := by
  rw [← buildCommandMap_keys cmds, dedupeCommands, List.map_map]
  apply List.map_congr_left
  intro p hp
  exact (buildCommandMapFrom_key_eq_name cmds [] (by simp) p hp).symm

/-! ## Branch evaluation lemmas for `generateGemini` -/

theorem generateGemini_nonInteractive_eval (env : GeminiEnv) (prompt : String)
    (k : String)
    (hErr : env.settings.errors = [])
    (hKey : env.geminiApiKey = some k)
    (hVal : env.validateAuthError = none)
    (hTTY : env.isTTY = false) :
    generateGemini env prompt false =
      (let config := loadCliConfig env.settings.merged "session-id"
          (defaultCliArgs env.settings.merged) env.initialApprovalMode
       let restricted := applyNonInteractiveRestrictions config env.settings
          env.restrictedApprovalMode
       let events := [EngineEvent.initCall, EngineEvent.refreshAuth] ++
          restricted.2 ++
          [EngineEvent.runCall EngineEntry.nonInteractive restricted.1 prompt
            env.promptId]
       match env.engineRunFailure with
       | some e =>
           (events, Except.error (GeminiError.executionError
             ("Échec de génération Gemini : " ++ e)))
       | none => (events, Except.ok "Réponse non-interactive générée.")) := by
  simp [generateGemini, hErr, hKey, hVal, hTTY]

theorem generateGemini_interactive_eval (env : GeminiEnv) (prompt : String)
    (k : String) (interactive : Bool)
    (hErr : env.settings.errors = [])
    (hKey : env.geminiApiKey = some k)
    (hVal : env.validateAuthError = none)
    (hBr : interactive = true ∨ env.isTTY = true) :
    generateGemini env prompt interactive =
      (let config := loadCliConfig env.settings.merged "session-id"
          (defaultCliArgs env.settings.merged) env.initialApprovalMode
       match resolveQuestion prompt env.engineQuestion with
       | none =>
           ([EngineEvent.initCall, EngineEvent.refreshAuth],
             Except.error (GeminiError.inputError "Aucune question fournie."))
       | some question =>
           let events := [EngineEvent.initCall, EngineEvent.refreshAuth] ++
             [EngineEvent.runCall EngineEntry.nonInteractive config question
               env.promptId]
           match env.engineRunFailure with
           | some e => (events, Except.error (GeminiError.engineFailure e))
           | none => (events, Except.ok "Réponse interactive générée.")) := by
  have hcond : (interactive || env.isTTY) = true := by
    rcases hBr with h | h <;> simp [h]
  simp [generateGemini, hErr, hKey, hVal, hcond]

/-! ## Concrete fixtures for witnesses and counterexamples -/

/-- A concrete built-in command, mirroring the test fixtures. -/
def cmdA : SlashCommand :=
  { name := "command-a", description := "Description for command-a",
    sourceTag := "built-in", behavior := "Custom" }

/-- A concrete built-in command named `command-b`. -/
def cmdB : SlashCommand :=
  { name := "command-b", description := "Description for command-b",
    sourceTag := "built-in", behavior := "Custom" }

/-- A file-sourced command that overrides `command-b`. -/
def cmdBOverride : SlashCommand :=
  { name := "command-b", description := "Description for command-b",
    sourceTag := "file", behavior := "Custom" }

/-- A concrete file-sourced command. -/
def cmdC : SlashCommand :=
  { name := "command-c", description := "Description for command-c",
    sourceTag := "file", behavior := "Custom" }

/-- Settings with no configured model, no exclusions and no errors. -/
def okSettings : LoadSettingsResult :=
  { merged := { model := none, excludeTools := none }, errors := [] }

/-- A well-formed environment: valid settings, credential present,
validation passing, no TTY, non-auto-approving initial approval mode,
engine succeeding. -/
def baseEnv : GeminiEnv :=
  { settings := okSettings
    geminiApiKey := some "key"
    isTTY := false
    validateAuthError := none
    engineQuestion := none
    initialApprovalMode := ApprovalMode.dflt
    restrictedApprovalMode := ApprovalMode.yolo
    engineRunFailure := none
    promptId := "cid" }

/-! ## Claim theorems -/

/-- C3: whatever subset of the registered loaders fails, `loadCommands()`
resolves (it is a total function of the settled outcomes — rejected
loaders are only logged), and the published catalog is the de-duplicated
merge, in registration order, of exactly the fulfilled loaders' outputs;
if every loader fails the catalog is empty. -/
theorem loadCommands_tolerates_failures (s : CommandService)
    (results : List LoaderOutcome)
    (hfail : ∃ r ∈ results, r = none) :
    (s.loadCommands results).getCommands =
      dedupeCommands ((results.filterMap id).flatten) ∧
    ((∀ r ∈ results, r = none) →
      (s.loadCommands results).getCommands = []) := by
  constructor
  · show dedupeCommands (collectFulfilled results) = _
    rw [collectFulfilled_eq_join]
  · intro hall
    show dedupeCommands (collectFulfilled results) = []
    rw [collectFulfilled_of_all_none results hall]
    rfl

/-- Witness for C3: a fulfilled loader next to a rejected one; the
catalog is the fulfilled loader's output, de-duplicated. -/
theorem loadCommands_tolerates_failures_witness :
    (CommandService.init.loadCommands [some [cmdA], none]).getCommands =
      dedupeCommands
        ((([some [cmdA], none] : List LoaderOutcome).filterMap id).flatten) ∧
    ((∀ r ∈ ([some [cmdA], none] : List LoaderOutcome), r = none) →
      (CommandService.init.loadCommands [some [cmdA], none]).getCommands = []) :=
  loadCommands_tolerates_failures CommandService.init [some [cmdA], none]
    ⟨none, by simp, rfl⟩

/-- C4: when loaders `[L1, L2]` both produce a command named `x`, the
catalog is the de-duplicated flattening of their outputs; the `Map` entry
for `x` is the last `x`-named command of `L2`'s output (last registration
wins), and the catalog's names keep first-insertion order, so `x` sits at
its first-seen (`L1`) position. -/
theorem catalog_last_wins_first_position (out1 out2 : List SlashCommand)
    (x : String) (h2 : lastNamed x out2 ≠ none) :
    (CommandService.init.loadCommands [some out1, some out2]).getCommands =
      dedupeCommands (out1 ++ out2) ∧
    mapLookup x (buildCommandMap (out1 ++ out2)) = lastNamed x out2 ∧
    (dedupeCommands (out1 ++ out2)).map SlashCommand.name =
      firstOccurrences ((out1 ++ out2).map SlashCommand.name) := by
  refine ⟨?_, ?_, dedupeCommands_names (out1 ++ out2)⟩
  · show dedupeCommands (collectFulfilled [some out1, some out2]) = _
    simp [collectFulfilled]
  · rw [mapLookup_buildCommandMap, lastNamed_append]
    cases h : lastNamed x out2 with
    | some d => rfl
    | none => exact absurd h h2

/-- Witness for C4: `L1 = [command-a, command-b]`, `L2 = [command-b
(override), command-c]`: the entry for `command-b` is the override, and
the catalog order is `[command-a, command-b, command-c]` with `command-b`
at `L1`'s position. -/
theorem catalog_last_wins_first_position_witness :
    (CommandService.init.loadCommands
        [some [cmdA, cmdB], some [cmdBOverride, cmdC]]).getCommands =
      dedupeCommands ([cmdA, cmdB] ++ [cmdBOverride, cmdC]) ∧
    mapLookup "command-b"
        (buildCommandMap ([cmdA, cmdB] ++ [cmdBOverride, cmdC])) =
      lastNamed "command-b" [cmdBOverride, cmdC] ∧
    (dedupeCommands ([cmdA, cmdB] ++ [cmdBOverride, cmdC])).map
        SlashCommand.name =
      firstOccurrences
        (([cmdA, cmdB] ++ [cmdBOverride, cmdC]).map SlashCommand.name) :=
  catalog_last_wins_first_position [cmdA, cmdB] [cmdBOverride, cmdC]
    "command-b" (by decide)

/-- C5 is refuted as stated (see `getCommands_init_push_succeeds`): the
error is only guaranteed after a `loadCommands()` call.  Amended claim:
after any `loadCommands()` call the returned array is frozen, so a push
raises a `TypeError` and the internal catalog is unchanged; in the
initial `Empty` state the returned array literal was never frozen, so a
push silently succeeds and mutates the internal catalog. -/
theorem pushReturned_frozen_after_load (s : CommandService)
    (results : List LoaderOutcome) (c : SlashCommand) :
    (s.loadCommands results).pushReturned c =
      PushResult.threw (s.loadCommands results) ∧
    CommandService.init.pushReturned c =
      PushResult.pushed { commands := [c], frozen := false } :=
  ⟨rfl, rfl⟩

/-- Counterexample to C5 as stated: in the initial `Empty` state,
pushing onto the array returned by `getCommands()` does not raise — it
silently succeeds, and the service's internal catalog gains the pushed
element. -/
theorem getCommands_init_push_succeeds :
    CommandService.init.pushReturned cmdA =
      PushResult.pushed { commands := [cmdA], frozen := false } ∧
    CommandService.init.pushReturned cmdA ≠
      PushResult.threw CommandService.init ∧
    ({ commands := [cmdA], frozen := false } : CommandService).getCommands ≠
      CommandService.init.getCommands := by
  refine ⟨rfl, ?_, ?_⟩ <;> decide

/-- C6: a second `loadCommands()` call replaces the catalog wholesale:
the resulting service state is built solely from the second call's
outcomes (identical to loading into a fresh service), and no command
whose name is absent from the second call's outputs survives. -/
theorem loadCommands_replaces_catalog (s : CommandService)
    (r1 r2 : List LoaderOutcome) :
    (s.loadCommands r1).loadCommands r2 =
      CommandService.init.loadCommands r2 ∧
    ∀ c : SlashCommand,
      c.name ∉ (collectFulfilled r2).map SlashCommand.name →
      c ∉ ((s.loadCommands r1).loadCommands r2).getCommands := by
  refine ⟨rfl, ?_⟩
  intro c hc hmem
  exact hc (List.mem_map.mpr ⟨c, mem_dedupeCommands _ c hmem, rfl⟩)

/-- Witness for C6: after loading `[command-a]` and then `[command-b]`,
`command-a` is gone and the state equals a fresh load of `[command-b]`. -/
theorem loadCommands_replaces_catalog_witness :
    ((CommandService.init.loadCommands [some [cmdA]]).loadCommands
        [some [cmdB]] =
      CommandService.init.loadCommands [some [cmdB]]) ∧
    cmdA ∉ ((CommandService.init.loadCommands [some [cmdA]]).loadCommands
        [some [cmdB]]).getCommands :=
  ⟨(loadCommands_replaces_catalog CommandService.init [some [cmdA]]
      [some [cmdB]]).1,
   (loadCommands_replaces_catalog CommandService.init [some [cmdA]]
      [some [cmdB]]).2 cmdA (by decide)⟩

/-- C1: in the non-interactive branch, when the initial configuration's
approval mode is not full auto-approval, the configuration handed to the
engine's execution entry has an excluded-tools set equal to the
de-duplicated merge of the settings-supplied exclusions with the
shell/edit/write tool names (so it contains all three) and auto-approval
forced on; when the approval mode is already full auto-approval, the
original configuration is passed unchanged (the pass only re-emits an
`initialize`). -/
theorem nonInteractive_restriction_pass (env : GeminiEnv) (prompt k : String)
    (hErr : env.settings.errors = [])
    (hKey : env.geminiApiKey = some k)
    (hVal : env.validateAuthError = none)
    (hTTY : env.isTTY = false) :
    (env.initialApprovalMode ≠ ApprovalMode.yolo →
      runCallsOf (generateGemini env prompt false).1 =
        [(EngineEntry.nonInteractive,
          { model := jsOrDefault env.settings.merged.model "gemini-1.5-flash"
            excludeTools := dedupStrings
              (env.settings.merged.excludeTools.getD [] ++
                [ShellToolName, EditToolName, WriteFileToolName])
            autoApprove := true
            approvalMode := env.restrictedApprovalMode
            sessionId := "session-id" }, prompt, env.promptId)] ∧
      ∀ t ∈ [ShellToolName, EditToolName, WriteFileToolName],
        t ∈ dedupStrings (env.settings.merged.excludeTools.getD [] ++
          [ShellToolName, EditToolName, WriteFileToolName])) ∧
    (env.initialApprovalMode = ApprovalMode.yolo →
      runCallsOf (generateGemini env prompt false).1 =
        [(EngineEntry.nonInteractive,
          loadCliConfig env.settings.merged "session-id"
            (defaultCliArgs env.settings.merged) env.initialApprovalMode,
          prompt, env.promptId)]) := by
  have heval := generateGemini_nonInteractive_eval env prompt k hErr hKey hVal hTTY
  constructor
  · intro hMode
    constructor
    · rw [heval]
      cases hrf : env.engineRunFailure <;>
        simp [hrf, runCallsOf, applyNonInteractiveRestrictions, loadCliConfig,
          restrictionCliArgs, defaultCliArgs, hMode]
    · intro t ht
      exact mem_dedupStrings _ t (List.mem_append_right _ ht)
  · intro hMode
    rw [heval]
    cases hrf : env.engineRunFailure <;>
      simp [hrf, runCallsOf, applyNonInteractiveRestrictions, loadCliConfig, hMode]

/-- Witness for C1 at a concrete non-auto-approving environment with no
settings-supplied exclusions: the executed configuration excludes
exactly the shell/edit/write tools and forces auto-approval. -/
theorem nonInteractive_restriction_pass_witness :
    runCallsOf (generateGemini baseEnv "list files" false).1 =
      [(EngineEntry.nonInteractive,
        { model := jsOrDefault baseEnv.settings.merged.model "gemini-1.5-flash"
          excludeTools := dedupStrings
            (baseEnv.settings.merged.excludeTools.getD [] ++
              [ShellToolName, EditToolName, WriteFileToolName])
          autoApprove := true
          approvalMode := baseEnv.restrictedApprovalMode
          sessionId := "session-id" }, "list files", baseEnv.promptId)] ∧
    ∀ t ∈ [ShellToolName, EditToolName, WriteFileToolName],
      t ∈ dedupStrings (baseEnv.settings.merged.excludeTools.getD [] ++
        [ShellToolName, EditToolName, WriteFileToolName]) :=
  (nonInteractive_restriction_pass baseEnv "list files" "key" rfl rfl rfl
    rfl).1 (by decide)

/-- C2 is refuted in its dispatch clause (see
`interactive_dispatch_counterexample`): the module imports only the
engine's non-interactive entry point and calls it in both branches.
Amended claim: in the interactive branch the runner resolves the
effective question as the trimmed prompt, falling back to the trimmed
engine-supplied question; with no resolvable question it fails with the
input error; otherwise it dispatches through the engine's
*non-interactive* execution entry point with the resolved question and,
on success, returns the fixed confirmation string. -/
theorem interactive_branch_behaviour (env : GeminiEnv) (prompt k : String)
    (interactive : Bool)
    (hErr : env.settings.errors = [])
    (hKey : env.geminiApiKey = some k)
    (hVal : env.validateAuthError = none)
    (hBr : interactive = true ∨ env.isTTY = true) :
    (resolveQuestion prompt env.engineQuestion = none →
      generateGemini env prompt interactive =
        ([EngineEvent.initCall, EngineEvent.refreshAuth],
          Except.error (GeminiError.inputError "Aucune question fournie."))) ∧
    (∀ q, resolveQuestion prompt env.engineQuestion = some q →
      runCallsOf (generateGemini env prompt interactive).1 =
        [(EngineEntry.nonInteractive,
          loadCliConfig env.settings.merged "session-id"
            (defaultCliArgs env.settings.merged) env.initialApprovalMode,
          q, env.promptId)] ∧
      (env.engineRunFailure = none →
        (generateGemini env prompt interactive).2 =
          Except.ok "Réponse interactive générée.")) := by
  have heval :=
    generateGemini_interactive_eval env prompt k interactive hErr hKey hVal hBr
  constructor
  · intro hq
    rw [heval]
    simp [hq]
  · intro q hq
    constructor
    · rw [heval]
      cases hrf : env.engineRunFailure <;> simp [hq, hrf, runCallsOf]
    · intro hrf
      rw [heval]
      simp [hq, hrf]

/-- Witness for C2 (amended) at a concrete interactive call: the
question resolves to the trimmed prompt, the dispatch carries it, and
the fixed confirmation string is returned. -/
theorem interactive_branch_behaviour_witness :
    (generateGemini baseEnv "hello" true).2 =
      Except.ok "Réponse interactive générée." ∧
    runCallsOf (generateGemini baseEnv "hello" true).1 =
      [(EngineEntry.nonInteractive,
        loadCliConfig baseEnv.settings.merged "session-id"
          (defaultCliArgs baseEnv.settings.merged) baseEnv.initialApprovalMode,
        "hello", baseEnv.promptId)] :=
  ⟨((interactive_branch_behaviour baseEnv "hello" "key" true rfl rfl rfl
      (Or.inl rfl)).2 "hello" (by decide)).2 rfl,
   ((interactive_branch_behaviour baseEnv "hello" "key" true rfl rfl rfl
      (Or.inl rfl)).2 "hello" (by decide)).1⟩

/-- Counterexample to C2 as stated: at a concrete call in the
interactive branch, the single execution dispatch goes through the
engine's non-interactive entry point, not the interactive one. -/
theorem interactive_dispatch_counterexample :
    (runCallsOf (generateGemini baseEnv "hello" true).1).map (fun r => r.1) =
      [EngineEntry.nonInteractive] ∧
    EngineEntry.nonInteractive ≠ EngineEntry.interactive := by
  refine ⟨by decide, by decide⟩

/-- C7: with at least one structural settings error, `generateGemini`
fails with the configuration diagnostic enumerating every offending
settings-file path and message joined into one string, and the engine
trace is empty: no `initialize`, no `refreshAuth`, no dispatch.  The
statement holds for every environment — in particular regardless of the
credential — because the settings check precedes authentication
resolution. -/
theorem settings_errors_abort (env : GeminiEnv) (prompt : String)
    (interactive : Bool) (h : env.settings.errors ≠ []) :
    generateGemini env prompt interactive =
      ([], Except.error (GeminiError.configurationError
        (String.intercalate "\n" (env.settings.errors.map
          (fun e => "Erreur dans " ++ e.path ++ ": " ++ e.message))))) := by
  simp [generateGemini, h, configErrorMessage]

/-- An environment whose settings source reports two structural errors. -/
def errEnv : GeminiEnv :=
  { baseEnv with
    settings :=
      { merged := { model := none, excludeTools := none }
        errors :=
          [{ path := "/home/u/.gemini/settings.json",
             message := "Unexpected token" },
           { path := "/work/.gemini/settings.json",
             message := "Invalid JSON" }] } }

/-- Witness for C7: both offending files appear in the one diagnostic
and the trace is empty. -/
theorem settings_errors_abort_witness :
    generateGemini errEnv "hi" false =
      ([], Except.error (GeminiError.configurationError
        (String.intercalate "\n" (errEnv.settings.errors.map
          (fun e => "Erreur dans " ++ e.path ++ ": " ++ e.message))))) :=
  settings_errors_abort errEnv "hi" false (by decide)

/-- C8: with well-formed settings and no `GEMINI_API_KEY`, the call
fails with the authentication error naming the expected settings file
path and the expected environment variable, with an empty engine trace
(before any engine initialization). -/
theorem missing_credential_aborts (env : GeminiEnv) (prompt : String)
    (interactive : Bool)
    (hErr : env.settings.errors = [])
    (hKey : env.geminiApiKey = none) :
    generateGemini env prompt interactive =
      ([], Except.error (GeminiError.authenticationError
        ("Aucune méthode d\x27auth. Configure " ++ USER_SETTINGS_PATH ++
          " ou définis GEMINI_API_KEY"))) := by
  simp [generateGemini, hErr, hKey, authMissingMessage]

/-- Witness for C8 at a concrete environment with the credential
variable unset. -/
theorem missing_credential_aborts_witness :
    generateGemini { baseEnv with geminiApiKey := none } "hello" false =
      ([], Except.error (GeminiError.authenticationError
        ("Aucune méthode d\x27auth. Configure " ++ USER_SETTINGS_PATH ++
          " ou définis GEMINI_API_KEY"))) :=
  missing_credential_aborts { baseEnv with geminiApiKey := none } "hello"
    false rfl rfl

/-- C9: evaluating the two model-fallback call sites on settings with no
configured model shows the divergence: the initial configuration's CLI
args default the model to `gemini-2.5-pro`, while the configuration the
restriction pass actually hands to non-interactive execution carries
`gemini-1.5-flash`; the two fixed fallback identifiers differ,
contradicting the single-fallback claim. -/
theorem model_fallback_divergence :
    (defaultCliArgs okSettings.merged).model = "gemini-2.5-pro" ∧
    (restrictionCliArgs okSettings.merged).model = "gemini-1.5-flash" ∧
    (runCallsOf (generateGemini baseEnv "p" false).1).map
        (fun r => r.2.1.model) = ["gemini-1.5-flash"] ∧
    ("gemini-2.5-pro" : String) ≠ "gemini-1.5-flash" := by
  refine ⟨rfl, rfl, by decide, by decide⟩

/-- C10: an engine failure in the interactive branch propagates as the
engine's own failure, unwrapped; the same failure in the non-interactive
branch is wrapped in the execution-error wrapper carrying the original
detail. -/
theorem engine_failure_propagation (env : GeminiEnv) (prompt k e q : String)
    (hErr : env.settings.errors = [])
    (hKey : env.geminiApiKey = some k)
    (hVal : env.validateAuthError = none)
    (hFail : env.engineRunFailure = some e)
    (hQ : resolveQuestion prompt env.engineQuestion = some q) :
    (generateGemini env prompt true).2 =
      Except.error (GeminiError.engineFailure e) ∧
    (env.isTTY = false →
      (generateGemini env prompt false).2 =
        Except.error (GeminiError.executionError
          ("Échec de génération Gemini : " ++ e))) := by
  constructor
  · rw [generateGemini_interactive_eval env prompt k true hErr hKey hVal
      (Or.inl rfl)]
    simp [hQ, hFail]
  · intro hTTY
    rw [generateGemini_nonInteractive_eval env prompt k hErr hKey hVal hTTY]
    simp [hFail]

/-- An environment whose engine run rejects. -/
def failEnv : GeminiEnv :=
  { baseEnv with engineRunFailure := some "Error: quota exceeded" }

/-- Witness for C10: the same concrete engine failure is rethrown
unchanged interactively and wrapped non-interactively. -/
theorem engine_failure_propagation_witness :
    (generateGemini failEnv "hello" true).2 =
      Except.error (GeminiError.engineFailure "Error: quota exceeded") ∧
    (generateGemini failEnv "hello" false).2 =
      Except.error (GeminiError.executionError
        ("Échec de génération Gemini : " ++ "Error: quota exceeded")) :=
  ⟨(engine_failure_propagation failEnv "hello" "key" "Error: quota exceeded"
      "hello" rfl rfl rfl rfl (by decide)).1,
   (engine_failure_propagation failEnv "hello" "key" "Error: quota exceeded"
      "hello" rfl rfl rfl rfl (by decide)).2 rfl⟩

end GeminiCli
